import Mathlib

/-!
Verification development for the Harmony editor's syntax-highlighting core
(src/main.py).  The per-line highlighter `SyntaxHighlighter.highlightBlock`
is embedded shallowly: each call of Qt's `setFormat(start, count, fmt)` is
recorded as a `Span` tagged with the lexical category whose format object
was passed; each `QMessageBox(...).exec()` is recorded as a `Msg`; a Python
exception escaping the method is recorded in the `exc` field.  The regular
expressions the source builds (`\b<kw>\b` for keywords, raw category
patterns, the two fixed string patterns, `\b<d>\b\s*(\w+)` for definitions
and `<comment>[^\n]*` for single-line comments) are embedded as the
`Pattern` type together with `re.finditer` semantics (`findIter`):
leftmost scanning, non-overlapping matches, advance by one after an empty
match.  Word characters follow ASCII `\w` (the grammars shipped with the
editor are ASCII).  A pattern string that does not compile is `Pattern.bad`;
`re.finditer` on it raises `re.error` (`Exc.reError`).  Grammar and theme
dictionaries loaded from YAML may lack keys, hence `Option` fields.
-/

namespace Harmony

/-- Lexical categories recognised by `SyntaxHighlighter.getFormat`
(src/main.py line 91). -/
inductive Cat
| keyword
| operator
| brace
| definition
| string
| comment
| special
deriving DecidableEq, Repr

/-- Message boxes the highlighting core can pop up. -/
inductive Msg
| couldNotOpenTheme
| couldNotOpenLangFile
| criticalInvalidFormat
deriving DecidableEq, Repr

/-- Python exceptions that can escape the embedded code. -/
inductive Exc
| keyError
| valueError
| reError
| typeError
deriving DecidableEq, Repr

/-- A theme style entry: `{colour, italic}` (spec section 3). -/
structure Style where
  colour : String
  italic : Bool
deriving DecidableEq, Repr

/-- The `theme['syntax']` dictionary: one optional entry per category name.
A `none` field models a missing key (Python `KeyError` on access). -/
structure Theme where
  keyword : Option Style
  operator : Option Style
  brace : Option Style
  definition : Option Style
  string : Option Style
  comment : Option Style
  special : Option Style
deriving DecidableEq, Repr

/-- Compiled shape of the regex pattern strings the source constructs.
`kw s` is `\b s \b` (for a keyword `s` made of word characters),
`lit s` a pattern matching the literal text `s` (operators, braces and
specials are passed through `r'%s' % o` unchanged), `defn s` is
`\b s \b\s*(\w+)`, `dquote`/`squote` the two fixed string rules of
src/main.py lines 118-121, `commentOf m` is `m[^\n]*`, and `bad` a
pattern string that fails to compile (raises `re.error` when used). -/
inductive Pattern
| lit : String → Pattern
| kw : String → Pattern
| defn : String → Pattern
| dquote : Pattern
| squote : Pattern
| commentOf : String → Pattern
| bad : Pattern
deriving DecidableEq, Repr

/-- The language dictionary loaded from `<lang>.lang` (YAML).  `none`
fields model missing keys.  `multiline` mirrors the spec's optional
multiline start/end delimiters; note the source never reads it. -/
structure Grammar where
  keywords : Option (List String)
  operators : Option (List Pattern)
  braces : Option (List Pattern)
  definitions : Option (List String)
  specials : Option (List Pattern)
  comment : Option String
  multiline : Option (String × String)
deriving DecidableEq, Repr

/-- One `re` match: full-match bounds plus the optional capture group 1
(present only for definition rules, which are applied with index 1). -/
structure REMatch where
  mstart : Nat
  mend : Nat
  g1 : Option (Nat × Nat)
deriving DecidableEq, Repr

/-- One recorded `setFormat(start, count, fmt)` call; `cat` identifies the
category whose `QTextCharFormat` was passed. -/
structure Span where
  start : Nat
  count : Nat
  cat : Cat
deriving DecidableEq, Repr

/-- ASCII `\w`: letters, digits, underscore. -/
def isWordChar (c : Char) : Bool := c.isAlphanum || c = '_'

/-- Python `\s`: space, tab, newline, carriage return, vertical tab, form feed. -/
def isSpaceChar (c : Char) : Bool :=
  c = ' ' || c = '\t' || c = '\n' || c = '\r' || c = '\x0b' || c = '\x0c'

/-- Whether position `i` of `t` holds a word character (out of range: no). -/
def isWordIdx (t : List Char) (i : Nat) : Bool :=
  match t.get? i with
  | some c => isWordChar c
  | none => false

/-- Regex `\b` at position `i`: the word-character status changes between
the character left of `i` and the character at `i`. -/
def boundaryAt (t : List Char) (i : Nat) : Bool :=
  (decide (i ≠ 0) && isWordIdx t (i - 1)) != isWordIdx t i

/-- Whether the characters of `t` starting at `i` begin with `s`. -/
def strPrefixAt (t : List Char) (i : Nat) (s : List Char) : Bool :=
  decide ((t.drop i).take s.length = s)

/-- Scan the body of a quoted string from position `p` (past the opening
delimiter) to just past the closing delimiter, honouring backslash escapes;
this is the matching behaviour of `"[^"\]*(\\.[^"\]*)*"` and its
single-quote twin.  `\\.` does not cross a newline. -/
def quoteScan (delim : Char) (t : List Char) : Nat → Nat → Option Nat
  | 0, _ => none
  | fuel + 1, p =>
    match t.get? p with
    | none => none
    | some c =>
      if c = delim then some (p + 1)
      else if c = '\\' then
        match t.get? (p + 1) with
        | none => none
        | some c2 => if c2 = '\n' then none else quoteScan delim t fuel (p + 2)
      else quoteScan delim t fuel (p + 1)

/-- Match a quoted-string rule at position `i`. -/
def quoteMatch (delim : Char) (t : List Char) (i : Nat) : Option REMatch :=
  match t.get? i with
  | none => none
  | some c =>
    if c = delim then
      match quoteScan delim t (t.length + 1) (i + 1) with
      | some e => some (REMatch.mk i e none)
      | none => none
    else none

/-- Match `\b s \b\s*(\w+)` at position `i`: the definition keyword with
word boundaries, greedy whitespace, then the captured identifier.  Since
`\s` and `\w` are disjoint, greedy matching needs no backtracking. -/
def defnMatch (s : String) (t : List Char) (i : Nat) : Option REMatch :=
  if strPrefixAt t i s.data && boundaryAt t i && boundaryAt t (i + s.length) then
    let k := i + s.length + ((t.drop (i + s.length)).takeWhile isSpaceChar).length
    let w := ((t.drop k).takeWhile isWordChar).length
    if w = 0 then none else some (REMatch.mk i (k + w) (some (k, k + w)))
  else none

/-- Anchored match of a pattern at position `i` of `t`. -/
def Pattern.matchAt : Pattern → List Char → Nat → Option REMatch
  | .lit s, t, i =>
    if strPrefixAt t i s.data then some (REMatch.mk i (i + s.length) none) else none
  | .kw s, t, i =>
    if strPrefixAt t i s.data && boundaryAt t i && boundaryAt t (i + s.length) then
      some (REMatch.mk i (i + s.length) none)
    else none
  | .defn s, t, i => defnMatch s t i
  | .dquote, t, i => quoteMatch '"' t i
  | .squote, t, i => quoteMatch '\'' t i
  | .commentOf mark, t, i =>
    if strPrefixAt t i mark.data then
      some (REMatch.mk i
        (i + mark.length + ((t.drop (i + mark.length)).takeWhile (fun c => c != '\n')).length)
        none)
    else none
  | .bad, _, _ => none

/-- Worker for `findIter`: scan positions left to right; after a match
resume at its end (or one further on an empty match). -/
def findIterAux (p : Pattern) (t : List Char) : Nat → Nat → List REMatch
  | 0, _ => []
  | fuel + 1, i =>
    if i > t.length then []
    else
      match Pattern.matchAt p t i with
      | some m => m :: findIterAux p t fuel (if i < m.mend then m.mend else i + 1)
      | none => findIterAux p t fuel (i + 1)

/-- `re.finditer(p, t)`: all non-overlapping matches, leftmost first. -/
def findIter (p : Pattern) (t : List Char) : List REMatch :=
  findIterAux p t (t.length + 2) 0

/-- `match.start(idx)`/`match.end(idx)`: group 0 is the full match; the
only rule applied with a nonzero index is the definition rule, whose
group 1 is always present on a match. -/
def groupSpan (m : REMatch) (idx : Nat) : Nat × Nat :=
  if idx = 0 then (m.mstart, m.mend) else m.g1.getD (m.mstart, m.mend)

/-- `SyntaxHighlighter.searchAndApplyFormatting` (src/main.py lines
139-142): for each rule in order, `re.finditer` and one `setFormat` per
match.  A `bad` rule makes `re.finditer` raise `re.error`, which aborts
the loop there; spans of earlier rules were already set. -/
def searchAndApplyFormatting (t : List Char) (rules : List Pattern) (cat : Cat)
    (idx : Nat) : List Span × Option Exc :=
  match rules with
  | [] => ([], none)
  | r :: rs =>
    if r = Pattern.bad then ([], some Exc.reError)
    else
      ((findIter r t).map (fun m =>
          Span.mk (groupSpan m idx).1 ((groupSpan m idx).2 - (groupSpan m idx).1) cat)
        ++ (searchAndApplyFormatting t rs cat idx).1,
       (searchAndApplyFormatting t rs cat idx).2)

/-- Look up a category name in the theme dictionary (`self.theme[ruleType]`). -/
def themeGet (th : Theme) (key : String) : Option Style :=
  if key = "keyword" then th.keyword
  else if key = "operator" then th.operator
  else if key = "brace" then th.brace
  else if key = "definition" then th.definition
  else if key = "string" then th.string
  else if key = "comment" then th.comment
  else if key = "special" then th.special
  else none

/-- `SyntaxHighlighter.getFormat` (src/main.py lines 90-102): reject an
unrecognised category name with `ValueError`; on a missing theme entry pop
a critical box and re-raise the `KeyError`. -/
def getFormat (th : Theme) (ruleType : String) : Option Style × List Msg × Option Exc :=
  if ruleType = "keyword" ∨ ruleType = "operator" ∨ ruleType = "brace" ∨
     ruleType = "definition" ∨ ruleType = "string" ∨ ruleType = "comment" ∨
     ruleType = "special" then
    match themeGet th ruleType with
    | some st => (some st, [], none)
    | none => (none, [Msg.criticalInvalidFormat], some Exc.keyError)
  else (none, [], some Exc.valueError)

/-- The seven `getFormat` calls of `highlightBlock` in source order
(src/main.py lines 105-111). -/
def ruleTypeNames : List String :=
  ["keyword", "operator", "brace", "special", "definition", "string", "comment"]

/-- Run the `getFormat` calls in order, stopping at the first exception. -/
def themeOk (th : Theme) : List String → List Msg × Option Exc
  | [] => ([], none)
  | n :: ns =>
    match getFormat th n with
    | (_, ms, some e) => (ms, some e)
    | (_, ms, none) => (ms ++ (themeOk th ns).1, (themeOk th ns).2)

/-- Build the per-category rule lists (src/main.py lines 114-123).  Any
missing grammar key raises `KeyError` before a single rule is applied;
keyword and definition entries are wrapped in `\b...\b` patterns, the two
string rules are fixed, and the comment rule is `<marker>[^\n]*`. -/
def buildRules (g : Grammar) :
    Option (List Pattern × List Pattern × List Pattern × List Pattern ×
            List Pattern × List Pattern × Pattern) :=
  match g.keywords, g.operators, g.braces, g.definitions, g.specials, g.comment with
  | some kws, some ops, some brs, some dfs, some sps, some cm =>
    some (kws.map Pattern.kw, ops, brs, dfs.map Pattern.defn,
          [Pattern.dquote, Pattern.squote], sps, Pattern.commentOf cm)
  | _, _, _, _, _, _ => none

/-- The `setFormat` calls of the inline comment loop (src/main.py lines
132-133): one span per `re.finditer` match of the comment rule. -/
def commentSpans (t : List Char) (cmR : Pattern) : List Span :=
  (findIter cmR t).map (fun m => Span.mk m.mstart (m.mend - m.mstart) Cat.comment)

/-- Apply the six `searchAndApplyFormatting` calls and the comment loop in
source order (src/main.py lines 125-133): keyword, operator, brace,
special, definition (group 1), string, comment.  A raised `re.error`
stops the pipeline; spans set before it remain recorded. -/
def applyAll (t : List Char) (kwR opR brR spR dfR stR : List Pattern)
    (cmR : Pattern) : List Span × Option Exc :=
  let r1 := searchAndApplyFormatting t kwR Cat.keyword 0
  if r1.2.isSome then (r1.1, r1.2) else
  let r2 := searchAndApplyFormatting t opR Cat.operator 0
  if r2.2.isSome then (r1.1 ++ r2.1, r2.2) else
  let r3 := searchAndApplyFormatting t brR Cat.brace 0
  if r3.2.isSome then (r1.1 ++ r2.1 ++ r3.1, r3.2) else
  let r4 := searchAndApplyFormatting t spR Cat.special 0
  if r4.2.isSome then (r1.1 ++ r2.1 ++ r3.1 ++ r4.1, r4.2) else
  let r5 := searchAndApplyFormatting t dfR Cat.definition 1
  if r5.2.isSome then (r1.1 ++ r2.1 ++ r3.1 ++ r4.1 ++ r5.1, r5.2) else
  let r6 := searchAndApplyFormatting t stR Cat.string 0
  if r6.2.isSome then (r1.1 ++ r2.1 ++ r3.1 ++ r4.1 ++ r5.1 ++ r6.1, r6.2) else
  (r1.1 ++ r2.1 ++ r3.1 ++ r4.1 ++ r5.1 ++ r6.1 ++ commentSpans t cmR, none)

/-- The body of `SyntaxHighlighter.highlightBlock` (src/main.py lines
104-137): seven theme lookups (a failure there escapes the method), then
the rule-list construction (a `KeyError` there is caught: critical box,
normal return, no spans), then the applications. -/
def highlightBlockCore (theme : Theme) (language : Grammar) (t : List Char) :
    List Span × List Msg × Option Exc :=
  match themeOk theme ruleTypeNames with
  | (ms, some e) => ([], ms, some e)
  | (ms, none) =>
    match buildRules language with
    | none => ([], ms ++ [Msg.criticalInvalidFormat], none)
    | some (kwR, opR, brR, dfR, stR, spR, cmR) =>
      ((applyAll t kwR opR brR spR dfR stR cmR).1, ms,
       (applyAll t kwR opR brR spR dfR stR cmR).2)

/-- Result of one `highlightBlock` invocation: the `setFormat` trace, the
message boxes shown, an escaped exception if any, and the block state
stored for the next line.  The stored state equals `ownState` (the block's
state before the call) because the source never calls
`setCurrentBlockState`; Qt then leaves the block's user state unchanged. -/
structure HBResult where
  formats : List Span
  msgs : List Msg
  exc : Option Exc
  blockState : Int
deriving DecidableEq, Repr

/-- `SyntaxHighlighter.highlightBlock` as observed at the Qt boundary.
`prevState` is what `previousBlockState()` would return (the previous
block's stored state); the source never reads it.  `ownState` is the
current block's stored state before the call; it is returned unchanged as
the state the next line will see, because `setCurrentBlockState` is never
called anywhere in src/main.py. -/
def highlightBlock (theme : Theme) (language : Grammar) (prevState ownState : Int)
    (text : String) : HBResult :=
  HBResult.mk (highlightBlockCore theme language text.data).1
    (highlightBlockCore theme language text.data).2.1
    (highlightBlockCore theme language text.data).2.2
    ownState

/-- `BlockState.OutsideComment` (src/main.py line 75). -/
def BlockState.OutsideComment : Int := -1

/-- `BlockState.InsideComment` (src/main.py line 76). -/
def BlockState.InsideComment : Int := 1

/-- `SyntaxHighlighter.isInsideComment` (src/main.py lines 84-85).  Dead
code: no method of the source ever calls it. -/
def isInsideComment (prevBS : Int) : Bool := prevBS == BlockState.InsideComment

/-- `SyntaxHighlighter.isOutsideComment` (src/main.py lines 87-88).  Dead
code: no method of the source ever calls it. -/
def isOutsideComment (prevBS : Int) : Bool := prevBS == BlockState.OutsideComment

/-- The grammar dictionary `loadSyntax` returns when the language file is
missing: the empty YAML mapping `{}`. -/
def emptyGrammar : Grammar := Grammar.mk none none none none none none none

/-- `loadSyntax` (src/main.py lines 57-65): the argument is the parsed
language file when it exists; on `FileNotFoundError` a warning box is
shown and the empty dictionary is returned. -/
def loadSyntax : Option Grammar → Grammar × List Msg
  | some g => (g, [])
  | none => (emptyGrammar, [Msg.couldNotOpenLangFile])

/-- The parsed theme file: its `'syntax'` section (`synSection`) plus the
UI-only keys, of which we keep the font as a representative. -/
structure ThemeFile where
  synSection : Option Theme
  font : Option String
deriving DecidableEq, Repr

/-- `loadTheme` (src/main.py lines 47-55): the argument is the parsed
theme file when it exists; on `FileNotFoundError` a warning box is shown
and the function falls through, returning `None`. -/
def loadTheme : Option ThemeFile → Option ThemeFile × List Msg
  | some tf => (some tf, [])
  | none => (none, [Msg.couldNotOpenTheme])

/-- `SyntaxHighlighter.__init__` (src/main.py lines 79-82):
`self.theme = theme['syntax']` subscripts the loaded theme — on `None`
this is a `TypeError`, on a dictionary without the key a `KeyError` —
then `self.language = loadSyntax(language)`. -/
def SyntaxHighlighterInit (themeVal : Option ThemeFile) (langFound : Option Grammar) :
    Except Exc (Theme × Grammar) :=
  match themeVal with
  | none => Except.error Exc.typeError
  | some tf =>
    match tf.synSection with
    | none => Except.error Exc.keyError
    | some th => Except.ok (th, (loadSyntax langFound).1)

/-- A span covers character offset `i`. -/
def covers (sp : Span) (i : Nat) : Prop := sp.start ≤ i ∧ i < sp.start + sp.count

instance (sp : Span) (i : Nat) : Decidable (covers sp i) :=
  inferInstanceAs (Decidable (sp.start ≤ i ∧ i < sp.start + sp.count))

/-- Effect of one `setFormat` call on the format of character `i`. -/
def applyStep (i : Nat) (acc : Option Cat) (sp : Span) : Option Cat :=
  if covers sp i then some sp.cat else acc

/-- Replay a `setFormat` trace: the final format of character `i` is the
one set by the last call covering it (last-writer-wins). -/
def applyTrace (trace : List Span) (i : Nat) : Option Cat :=
  trace.foldl (applyStep i) none

/-- The spans of one category inside a trace. -/
def catSpansL (trace : List Span) (c : Cat) : List Span :=
  trace.filter (fun sp => decide (sp.cat = c))

/-- A complete theme: every `getFormat` call of `highlightBlock` succeeds. -/
abbrev themeComplete (th : Theme) : Prop := themeOk th ruleTypeNames = ([], none)

/-- A concrete style used by the sample themes below. -/
def styleW : Style := Style.mk "white" false

/-- A sample theme supplying all seven categories. -/
def themeC : Theme :=
  Theme.mk (some styleW) (some styleW) (some styleW) (some styleW)
    (some styleW) (some styleW) (some styleW)

/-- A sample theme missing exactly the `operator` category. -/
def themeNoOperator : Theme :=
  Theme.mk (some styleW) none (some styleW) (some styleW)
    (some styleW) (some styleW) (some styleW)

/-- Grammar with keywords `["if"]` and otherwise empty categories. -/
def gramIf : Grammar :=
  Grammar.mk (some ["if"]) (some []) (some []) (some []) (some []) (some "#") none

/-- Grammar with keywords `["if", "else"]` (Scenario A). -/
def gramIfElse : Grammar :=
  Grammar.mk (some ["if", "else"]) (some []) (some []) (some []) (some []) (some "#") none

/-- Grammar with keywords `["for"]`, to probe substring matching. -/
def gramFor : Grammar :=
  Grammar.mk (some ["for"]) (some []) (some []) (some []) (some []) (some "#") none

/-- Grammar declaring multiline comment delimiters `/*` and `*/`
(Scenario B); the source never reads the `multiline` key. -/
def gramMulti : Grammar :=
  Grammar.mk (some []) (some []) (some []) (some []) (some []) (some "#")
    (some ("/\\*", "\\*/"))

/-- Grammar whose operator list holds one malformed pattern, with a brace
rule after it in application order. -/
def gramBadOp : Grammar :=
  Grammar.mk (some ["if"]) (some [Pattern.bad]) (some [Pattern.lit "("])
    (some []) (some []) (some "#") none

/-- Grammar with keyword `y` and comment marker `#`, for the
last-writer-wins check. -/
def gramHash : Grammar :=
  Grammar.mk (some ["y"]) (some []) (some []) (some []) (some []) (some "#") none

/-! Helper lemmas about the embedding. -/

/-- Every span emitted by `searchAndApplyFormatting` carries the category
whose format object the call received. -/
theorem saf_cats (t : List Char) (rules : List Pattern) (c : Cat) (idx : Nat) :
    ∀ sp ∈ (searchAndApplyFormatting t rules c idx).1, sp.cat = c := by
  induction rules with
  | nil => intro sp h; simp [searchAndApplyFormatting] at h
  | cons r rs ih =>
    intro sp h
    by_cases hr : r = Pattern.bad
    · simp [searchAndApplyFormatting, hr] at h
    · simp only [searchAndApplyFormatting, if_neg hr] at h
      rcases List.mem_append.1 h with h1 | h2
      · rcases List.mem_map.1 h1 with ⟨m, _, rfl⟩
        rfl
      · exact ih sp h2

/-- A rule list without a malformed pattern raises no exception. -/
theorem saf_no_bad (t : List Char) (rules : List Pattern) (c : Cat) (idx : Nat)
    (h : ∀ q ∈ rules, q ≠ Pattern.bad) :
    (searchAndApplyFormatting t rules c idx).2 = none := by
  induction rules with
  | nil => rfl
  | cons r rs ih =>
    have hr : r ≠ Pattern.bad := h r (List.mem_cons_self r rs)
    simp only [searchAndApplyFormatting, if_neg hr]
    exact ih (fun q hq => h q (List.mem_cons_of_mem r hq))

/-- A malformed pattern stops the rule loop exactly when it is reached:
the spans of the well-formed rules before it are kept, and `re.error`
is raised. -/
theorem saf_with_bad (t : List Char) (c : Cat) (idx : Nat) (ops1 ops2 : List Pattern)
    (h : ∀ q ∈ ops1, q ≠ Pattern.bad) :
    searchAndApplyFormatting t (ops1 ++ Pattern.bad :: ops2) c idx
      = ((searchAndApplyFormatting t ops1 c idx).1, some Exc.reError) := by
  induction ops1 with
  | nil => simp [searchAndApplyFormatting]
  | cons r rs ih =>
    have hr : r ≠ Pattern.bad := h r (List.mem_cons_self r rs)
    have ih2 := ih (fun q hq => h q (List.mem_cons_of_mem r hq))
    simp only [List.cons_append, searchAndApplyFormatting, if_neg hr, List.append_eq, ih2]

/-- Keyword rules are never malformed in the embedding. -/
theorem map_kw_no_bad (kws : List String) :
    ∀ q ∈ kws.map Pattern.kw, q ≠ Pattern.bad := by
  intro q hq
  rcases List.mem_map.1 hq with ⟨s, _, rfl⟩
  exact fun hcon => Pattern.noConfusion hcon

/-- Inversion of a keyword-rule match: it is the keyword placed at a
position with a word boundary on both sides. -/
theorem matchAt_kw_inv (s : String) (t : List Char) (j : Nat) (m : REMatch)
    (h : Pattern.matchAt (Pattern.kw s) t j = some m) :
    m = REMatch.mk j (j + s.length) none
    ∧ boundaryAt t j = true ∧ boundaryAt t (j + s.length) = true := by
  simp only [Pattern.matchAt] at h
  split at h
  · rename_i hc
    rw [Bool.and_eq_true, Bool.and_eq_true] at hc
    obtain ⟨⟨_, hb1⟩, hc3⟩ := hc
    injection h with h
    exact ⟨h.symm, hb1, hc3⟩
  · exact Option.noConfusion h

/-- Every match reported by the scanner is an anchored match of the
pattern at some position. -/
theorem findIterAux_sound (p : Pattern) (t : List Char) :
    ∀ (fuel i : Nat) (m : REMatch), m ∈ findIterAux p t fuel i →
      ∃ j, Pattern.matchAt p t j = some m := by
  intro fuel
  induction fuel with
  | zero => intro i m h; simp [findIterAux] at h
  | succ f ih =>
    intro i m h
    simp only [findIterAux] at h
    split at h
    · simp at h
    · split at h
      · rename_i m0 hm0
        rcases List.mem_cons.1 h with rfl | h2
        · exact ⟨i, hm0⟩
        · exact ih _ m h2
      · exact ih _ m h

/-- `findIter` version of `findIterAux_sound`. -/
theorem findIter_sound (p : Pattern) (t : List Char) (m : REMatch)
    (h : m ∈ findIter p t) : ∃ j, Pattern.matchAt p t j = some m :=
  findIterAux_sound p t (t.length + 2) 0 m h

/-- When a match has no group 1, any group index formats the full match. -/
theorem groupSpan_g1_none (m : REMatch) (idx : Nat) (h : m.g1 = none) :
    groupSpan m idx = (m.mstart, m.mend) := by
  unfold groupSpan
  split
  · rfl
  · rw [h]; rfl

/-- Every span produced from keyword rules sits on word boundaries at both
ends. -/
theorem saf_kw_bounds (t : List Char) (kws : List String) (c : Cat) (idx : Nat) :
    ∀ sp ∈ (searchAndApplyFormatting t (kws.map Pattern.kw) c idx).1,
      boundaryAt t sp.start = true ∧ boundaryAt t (sp.start + sp.count) = true := by
  induction kws with
  | nil => intro sp h; simp [searchAndApplyFormatting] at h
  | cons s rest ih =>
    intro sp h
    have hr : Pattern.kw s ≠ Pattern.bad := fun hcon => Pattern.noConfusion hcon
    simp only [List.map_cons, searchAndApplyFormatting, if_neg hr] at h
    rcases List.mem_append.1 h with h1 | h2
    · rcases List.mem_map.1 h1 with ⟨m, hm, rfl⟩
      obtain ⟨j, hj⟩ := findIter_sound _ _ m hm
      obtain ⟨hmeq, hb1, hb2⟩ := matchAt_kw_inv s t j m hj
      subst hmeq
      rw [groupSpan_g1_none _ idx rfl]
      constructor
      · exact hb1
      · show boundaryAt t (j + (j + s.length - j)) = true
        rwa [Nat.add_sub_cancel_left]
    · exact ih sp h2

/-- On the empty line every anchored match is empty and has no group 1. -/
theorem matchAt_nil (p : Pattern) (j : Nat) (m : REMatch)
    (h : Pattern.matchAt p [] j = some m) : m.mend = m.mstart ∧ m.g1 = none := by
  cases p with
  | lit s =>
    simp only [Pattern.matchAt] at h
    split at h
    · rename_i hc
      have hd : s.data = [] := by
        have := of_decide_eq_true hc
        simpa using this.symm
      have hlen : s.length = 0 := by simp [String.length, hd]
      injection h with h
      subst h
      simp [hlen]
    · exact Option.noConfusion h
  | kw s =>
    have hbnd : boundaryAt ([] : List Char) j = false := by
      simp [boundaryAt, isWordIdx]
    simp [Pattern.matchAt, hbnd] at h
  | defn s =>
    have hbnd : boundaryAt ([] : List Char) j = false := by
      simp [boundaryAt, isWordIdx]
    simp [defnMatch, Pattern.matchAt, hbnd] at h
  | dquote => simp [Pattern.matchAt, quoteMatch] at h
  | squote => simp [Pattern.matchAt, quoteMatch] at h
  | commentOf mark =>
    simp only [Pattern.matchAt] at h
    split at h
    · rename_i hc
      have hd : mark.data = [] := by
        have := of_decide_eq_true hc
        simpa using this.symm
      have hlen : mark.length = 0 := by simp [String.length, hd]
      injection h with h
      subst h
      simp [hlen]
    · exact Option.noConfusion h
  | bad => exact Option.noConfusion h

/-- On the empty line every rule span has zero length. -/
theorem saf_counts_nil (rules : List Pattern) (c : Cat) (idx : Nat) :
    ∀ sp ∈ (searchAndApplyFormatting [] rules c idx).1, sp.count = 0 := by
  induction rules with
  | nil => intro sp h; simp [searchAndApplyFormatting] at h
  | cons r rs ih =>
    intro sp h
    by_cases hr : r = Pattern.bad
    · simp [searchAndApplyFormatting, hr] at h
    · simp only [searchAndApplyFormatting, if_neg hr] at h
      rcases List.mem_append.1 h with h1 | h2
      · rcases List.mem_map.1 h1 with ⟨m, hm, rfl⟩
        obtain ⟨j, hj⟩ := findIter_sound _ _ m hm
        obtain ⟨he, hg⟩ := matchAt_nil r j m hj
        rw [groupSpan_g1_none _ idx hg]
        simp [he]
      · exact ih sp h2

/-- Comment spans all carry the comment category. -/
theorem commentSpans_cat (t : List Char) (cmR : Pattern) :
    ∀ sp ∈ commentSpans t cmR, sp.cat = Cat.comment := by
  intro sp h
  rcases List.mem_map.1 h with ⟨m, _, rfl⟩
  rfl

/-- On the empty line comment spans have zero length. -/
theorem commentSpans_nil_counts (cmR : Pattern) :
    ∀ sp ∈ commentSpans [] cmR, sp.count = 0 := by
  intro sp h
  rcases List.mem_map.1 h with ⟨m, hm, rfl⟩
  obtain ⟨j, hj⟩ := findIter_sound _ _ m hm
  obtain ⟨he, _⟩ := matchAt_nil cmR j m hj
  simp [he]

/-- Case analysis of one `highlightBlock` body run: theme failure,
grammar-key failure (caught), or the application pipeline. -/
theorem core_cases (th : Theme) (g : Grammar) (t : List Char) :
    (∃ ms e, themeOk th ruleTypeNames = (ms, some e)
      ∧ highlightBlockCore th g t = ([], ms, some e))
    ∨ (∃ ms, themeOk th ruleTypeNames = (ms, none) ∧ buildRules g = none
      ∧ highlightBlockCore th g t = ([], ms ++ [Msg.criticalInvalidFormat], none))
    ∨ (∃ ms kwR opR brR dfR stR spR cmR,
        themeOk th ruleTypeNames = (ms, none)
        ∧ buildRules g = some (kwR, opR, brR, dfR, stR, spR, cmR)
        ∧ highlightBlockCore th g t
            = ((applyAll t kwR opR brR spR dfR stR cmR).1, ms,
               (applyAll t kwR opR brR spR dfR stR cmR).2)) := by
  rcases hok : themeOk th ruleTypeNames with ⟨ms, e⟩
  cases e with
  | some ex =>
    exact Or.inl ⟨ms, ex, rfl, by unfold highlightBlockCore; rw [hok]⟩
  | none =>
    rcases hbr : buildRules g with _ | ⟨kwR, opR, brR, dfR, stR, spR, cmR⟩
    · exact Or.inr (Or.inl ⟨ms, rfl, rfl, by unfold highlightBlockCore; rw [hok, hbr]⟩)
    · exact Or.inr (Or.inr ⟨ms, kwR, opR, brR, dfR, stR, spR, cmR, rfl, rfl,
        by unfold highlightBlockCore; rw [hok, hbr]⟩)

/-- Inversion of a successful rule-list construction. -/
theorem buildRules_inv (g : Grammar)
    (tup : List Pattern × List Pattern × List Pattern × List Pattern ×
           List Pattern × List Pattern × Pattern)
    (h : buildRules g = some tup) :
    ∃ kws ops brs dfs sps cm,
      g.keywords = some kws ∧ g.definitions = some dfs ∧ g.comment = some cm
      ∧ tup = (kws.map Pattern.kw, ops, brs, dfs.map Pattern.defn,
               [Pattern.dquote, Pattern.squote], sps, Pattern.commentOf cm) := by
  unfold buildRules at h
  split at h
  · rename_i kws ops brs dfs sps cm hk hop hb hd hs hc
    injection h with h
    exact ⟨kws, ops, brs, dfs, sps, cm, hk, hd, hc, h.symm⟩
  · exact Option.noConfusion h

/-- Every span of the application pipeline comes from one of its seven
phases. -/
theorem applyAll_mem (t : List Char) (kwR opR brR spR dfR stR : List Pattern)
    (cmR : Pattern) :
    ∀ sp ∈ (applyAll t kwR opR brR spR dfR stR cmR).1,
      sp ∈ (searchAndApplyFormatting t kwR Cat.keyword 0).1
      ∨ sp ∈ (searchAndApplyFormatting t opR Cat.operator 0).1
      ∨ sp ∈ (searchAndApplyFormatting t brR Cat.brace 0).1
      ∨ sp ∈ (searchAndApplyFormatting t spR Cat.special 0).1
      ∨ sp ∈ (searchAndApplyFormatting t dfR Cat.definition 1).1
      ∨ sp ∈ (searchAndApplyFormatting t stR Cat.string 0).1
      ∨ sp ∈ commentSpans t cmR := by
  intro sp h
  simp only [applyAll] at h
  split_ifs at h <;> simp only [List.mem_append] at h <;> tauto

/-- The application pipeline emits its spans grouped by category in the
fixed source order keyword, operator, brace, special, definition, string,
comment. -/
theorem applyAll_decomp (t : List Char) (kwR opR brR spR dfR stR : List Pattern)
    (cmR : Pattern) :
    ∃ s1 s2 s3 s4 s5 s6 s7 : List Span,
      (applyAll t kwR opR brR spR dfR stR cmR).1
        = s1 ++ s2 ++ s3 ++ s4 ++ s5 ++ s6 ++ s7
      ∧ (∀ sp ∈ s1, sp.cat = Cat.keyword) ∧ (∀ sp ∈ s2, sp.cat = Cat.operator)
      ∧ (∀ sp ∈ s3, sp.cat = Cat.brace) ∧ (∀ sp ∈ s4, sp.cat = Cat.special)
      ∧ (∀ sp ∈ s5, sp.cat = Cat.definition) ∧ (∀ sp ∈ s6, sp.cat = Cat.string)
      ∧ (∀ sp ∈ s7, sp.cat = Cat.comment) := by
  simp only [applyAll]
  split_ifs
  · exact ⟨(searchAndApplyFormatting t kwR Cat.keyword 0).1, [], [], [], [], [], [],
      by simp, saf_cats t kwR Cat.keyword 0,
      by simp, by simp, by simp, by simp, by simp, by simp⟩
  · exact ⟨(searchAndApplyFormatting t kwR Cat.keyword 0).1,
      (searchAndApplyFormatting t opR Cat.operator 0).1, [], [], [], [], [],
      by simp, saf_cats t kwR Cat.keyword 0, saf_cats t opR Cat.operator 0,
      by simp, by simp, by simp, by simp, by simp⟩
  · exact ⟨(searchAndApplyFormatting t kwR Cat.keyword 0).1,
      (searchAndApplyFormatting t opR Cat.operator 0).1,
      (searchAndApplyFormatting t brR Cat.brace 0).1, [], [], [], [],
      by simp, saf_cats t kwR Cat.keyword 0, saf_cats t opR Cat.operator 0,
      saf_cats t brR Cat.brace 0, by simp, by simp, by simp, by simp⟩
  · exact ⟨(searchAndApplyFormatting t kwR Cat.keyword 0).1,
      (searchAndApplyFormatting t opR Cat.operator 0).1,
      (searchAndApplyFormatting t brR Cat.brace 0).1,
      (searchAndApplyFormatting t spR Cat.special 0).1, [], [], [],
      by simp, saf_cats t kwR Cat.keyword 0, saf_cats t opR Cat.operator 0,
      saf_cats t brR Cat.brace 0, saf_cats t spR Cat.special 0,
      by simp, by simp, by simp⟩
  · exact ⟨(searchAndApplyFormatting t kwR Cat.keyword 0).1,
      (searchAndApplyFormatting t opR Cat.operator 0).1,
      (searchAndApplyFormatting t brR Cat.brace 0).1,
      (searchAndApplyFormatting t spR Cat.special 0).1,
      (searchAndApplyFormatting t dfR Cat.definition 1).1, [], [],
      by simp, saf_cats t kwR Cat.keyword 0, saf_cats t opR Cat.operator 0,
      saf_cats t brR Cat.brace 0, saf_cats t spR Cat.special 0,
      saf_cats t dfR Cat.definition 1, by simp, by simp⟩
  · exact ⟨(searchAndApplyFormatting t kwR Cat.keyword 0).1,
      (searchAndApplyFormatting t opR Cat.operator 0).1,
      (searchAndApplyFormatting t brR Cat.brace 0).1,
      (searchAndApplyFormatting t spR Cat.special 0).1,
      (searchAndApplyFormatting t dfR Cat.definition 1).1,
      (searchAndApplyFormatting t stR Cat.string 0).1, [],
      by simp, saf_cats t kwR Cat.keyword 0, saf_cats t opR Cat.operator 0,
      saf_cats t brR Cat.brace 0, saf_cats t spR Cat.special 0,
      saf_cats t dfR Cat.definition 1, saf_cats t stR Cat.string 0, by simp⟩
  · exact ⟨(searchAndApplyFormatting t kwR Cat.keyword 0).1,
      (searchAndApplyFormatting t opR Cat.operator 0).1,
      (searchAndApplyFormatting t brR Cat.brace 0).1,
      (searchAndApplyFormatting t spR Cat.special 0).1,
      (searchAndApplyFormatting t dfR Cat.definition 1).1,
      (searchAndApplyFormatting t stR Cat.string 0).1, commentSpans t cmR,
      by simp, saf_cats t kwR Cat.keyword 0, saf_cats t opR Cat.operator 0,
      saf_cats t brR Cat.brace 0, saf_cats t spR Cat.special 0,
      saf_cats t dfR Cat.definition 1, saf_cats t stR Cat.string 0,
      commentSpans_cat t cmR⟩

/-- Replaying `setFormat` calls none of which covers `i` leaves the format
of character `i` unchanged. -/
theorem foldl_no_cover (i : Nat) :
    ∀ (l : List Span), (∀ sp ∈ l, ¬ covers sp i) →
      ∀ a : Option Cat, l.foldl (applyStep i) a = a := by
  intro l
  induction l with
  | nil => intro _ a; rfl
  | cons sp rest ih =>
    intro h a
    have h1 : ¬ covers sp i := h sp (List.mem_cons_self sp rest)
    simp only [List.foldl_cons, applyStep, if_neg h1]
    exact ih (fun q hq => h q (List.mem_cons_of_mem sp hq)) a

/-- If some call in a homogeneous trace covers `i`, replaying the trace
ends with that category at `i`, whatever was there before. -/
theorem foldl_covered (i : Nat) (c : Cat) :
    ∀ (l : List Span), (∀ sp ∈ l, sp.cat = c) → (∃ sp ∈ l, covers sp i) →
      ∀ a : Option Cat, l.foldl (applyStep i) a = some c := by
  intro l
  induction l with
  | nil =>
    intro _ hcov a
    rcases hcov with ⟨sp, hm, _⟩
    simp at hm
  | cons sp rest ih =>
    intro hcat hcov a
    by_cases hrest : ∃ q ∈ rest, covers q i
    · simp only [List.foldl_cons]
      exact ih (fun q hq => hcat q (List.mem_cons_of_mem sp hq)) hrest _
    · have hsp : covers sp i := by
        rcases hcov with ⟨q, hq, hcq⟩
        rcases List.mem_cons.1 hq with rfl | hq2
        · exact hcq
        · exact absurd ⟨q, hq2, hcq⟩ hrest
      push_neg at hrest
      simp only [List.foldl_cons, applyStep, if_pos hsp]
      rw [foldl_no_cover i rest hrest]
      rw [hcat sp (List.mem_cons_self sp rest)]

/-- A theme whose `operator` entry is missing makes the `getFormat` calls
fail there: one critical box and an escaping `KeyError`. -/
theorem themeOk_operator_none (th : Theme) (h : th.operator = none) :
    themeOk th ruleTypeNames = ([Msg.criticalInvalidFormat], some Exc.keyError) := by
  obtain ⟨k, o, b, d, s, c, sp⟩ := th
  cases o with
  | some st => exact Option.noConfusion h
  | none =>
    cases k with
    | none => rfl
    | some st => rfl

/-- Keyword-category spans of a whole `highlightBlock` run sit on word
boundaries at both ends. -/
theorem core_kw_bounds (th : Theme) (g : Grammar) (t : List Char) :
    ∀ sp ∈ (highlightBlockCore th g t).1, sp.cat = Cat.keyword →
      boundaryAt t sp.start = true ∧ boundaryAt t (sp.start + sp.count) = true := by
  intro sp h hcat
  rcases core_cases th g t with ⟨ms, e, _, hcore⟩ | ⟨ms, _, _, hcore⟩ |
    ⟨ms, kwR, opR, brR, dfR, stR, spR, cmR, _, hbr, hcore⟩
  · rw [hcore] at h; simp at h
  · rw [hcore] at h; simp at h
  · rw [hcore] at h
    obtain ⟨kws, ops, brs, dfs, sps, cm, _, _, _, htup⟩ := buildRules_inv g _ hbr
    injection htup with e1 erest
    rcases applyAll_mem t kwR opR brR spR dfR stR cmR sp h with
      hm | hm | hm | hm | hm | hm | hm
    · rw [e1] at hm
      exact saf_kw_bounds t kws Cat.keyword 0 sp hm
    · rw [saf_cats t opR Cat.operator 0 sp hm] at hcat; exact Cat.noConfusion hcat
    · rw [saf_cats t brR Cat.brace 0 sp hm] at hcat; exact Cat.noConfusion hcat
    · rw [saf_cats t spR Cat.special 0 sp hm] at hcat; exact Cat.noConfusion hcat
    · rw [saf_cats t dfR Cat.definition 1 sp hm] at hcat; exact Cat.noConfusion hcat
    · rw [saf_cats t stR Cat.string 0 sp hm] at hcat; exact Cat.noConfusion hcat
    · rw [commentSpans_cat t cmR sp hm] at hcat; exact Cat.noConfusion hcat

/-- On the empty line every recorded `setFormat` call has zero length. -/
theorem core_nil (th : Theme) (g : Grammar) :
    ∀ sp ∈ (highlightBlockCore th g []).1, sp.count = 0 := by
  intro sp h
  rcases core_cases th g [] with ⟨ms, e, _, hcore⟩ | ⟨ms, _, _, hcore⟩ |
    ⟨ms, kwR, opR, brR, dfR, stR, spR, cmR, _, _, hcore⟩
  · rw [hcore] at h; simp at h
  · rw [hcore] at h; simp at h
  · rw [hcore] at h
    rcases applyAll_mem [] kwR opR brR spR dfR stR cmR sp h with
      hm | hm | hm | hm | hm | hm | hm
    · exact saf_counts_nil kwR Cat.keyword 0 sp hm
    · exact saf_counts_nil opR Cat.operator 0 sp hm
    · exact saf_counts_nil brR Cat.brace 0 sp hm
    · exact saf_counts_nil spR Cat.special 0 sp hm
    · exact saf_counts_nil dfR Cat.definition 1 sp hm
    · exact saf_counts_nil stR Cat.string 0 sp hm
    · exact commentSpans_nil_counts cmR sp hm

/-! The claims. -/

/-- C1: the claim asserts the OutsideComment/InsideComment transitions of
the multiline tracker.  The code has no such tracker: on a line holding an
unclosed `/*` opener (Scenario B) with previous state OutsideComment, no
comment span is emitted and the stored state stays OutsideComment; on the
follow-up line fed with state InsideComment and a `*/` closer, again no
comment span is emitted and the stored state does not become
OutsideComment by any action of the highlighter — `setCurrentBlockState`
is never called, so the stored state always equals the block's prior
state (third conjunct). -/
theorem claim_C1 :
    highlightBlock themeC gramMulti BlockState.OutsideComment BlockState.OutsideComment
        "int x; /* start"
      = HBResult.mk [] [] none BlockState.OutsideComment
    ∧ highlightBlock themeC gramMulti BlockState.InsideComment BlockState.InsideComment
        "still comment */"
      = HBResult.mk [] [] none BlockState.InsideComment
    ∧ (∀ (th : Theme) (g : Grammar) (p o : Int) (tx : String),
        (highlightBlock th g p o tx).blockState = o) :=
  ⟨by decide, by decide, fun _ _ _ _ _ => rfl⟩

/-- C2: the claim asserts that a line carried in with state InsideComment
skips all category matching.  The code never consults the carried-in
state: with previous state InsideComment the keyword span for `if` is
still produced (first conjunct), and the whole result is independent of
the previous-line state (second conjunct). -/
theorem claim_C2 :
    (highlightBlock themeC gramIf BlockState.InsideComment BlockState.OutsideComment
        "if x: pass").formats = [Span.mk 0 2 Cat.keyword]
    ∧ (∀ (th : Theme) (g : Grammar) (p p2 o : Int) (tx : String),
        highlightBlock th g p o tx = highlightBlock th g p2 o tx) :=
  ⟨by decide, fun _ _ _ _ _ _ => rfl⟩

/-- C3 counterexample: with a theme missing only the `operator` category,
on line `if x` the claim predicts the keyword span at offset 0 and only
operator spans skipped; instead no span at all is produced — the
`KeyError` raised by `getFormat` escapes before any rule is applied. -/
theorem claim_C3_counterexample :
    (highlightBlock themeNoOperator gramIf (-1) (-1) "if x").formats = []
    ∧ Span.mk 0 2 Cat.keyword ∉ (highlightBlock themeNoOperator gramIf (-1) (-1) "if x").formats
    ∧ (highlightBlock themeNoOperator gramIf (-1) (-1) "if x").msgs
        = [Msg.criticalInvalidFormat]
    ∧ (highlightBlock themeNoOperator gramIf (-1) (-1) "if x").exc = some Exc.keyError :=
  ⟨by decide, by decide, by decide, by decide⟩

/-- C3 amended: for every theme missing the `operator` category and every
line, highlighting reports one configuration error and then aborts the
whole line: the `KeyError` re-raised by `getFormat` escapes before any
category is applied, so no category's spans are produced. -/
theorem claim_C3_amended (th : Theme) (g : Grammar) (p o : Int) (tx : String)
    (h : th.operator = none) :
    (highlightBlock th g p o tx).formats = []
    ∧ (highlightBlock th g p o tx).msgs = [Msg.criticalInvalidFormat]
    ∧ (highlightBlock th g p o tx).exc = some Exc.keyError := by
  have hk := themeOk_operator_none th h
  refine ⟨?_, ?_, ?_⟩ <;> simp [highlightBlock, highlightBlockCore, hk]

/-- C3 witness: the amended statement at the sample theme missing
`operator`. -/
theorem claim_C3_witness :
    themeNoOperator.operator = none
    ∧ ((highlightBlock themeNoOperator gramIf (-1) (-1) "if x").formats = []
       ∧ (highlightBlock themeNoOperator gramIf (-1) (-1) "if x").msgs
           = [Msg.criticalInvalidFormat]
       ∧ (highlightBlock themeNoOperator gramIf (-1) (-1) "if x").exc
           = some Exc.keyError) :=
  ⟨rfl, claim_C3_amended themeNoOperator gramIf (-1) (-1) "if x" rfl⟩

/-- C4: for every line, the recorded spans form seven consecutive groups
in the fixed order keyword, operator, brace, special, definition, string,
comment (first conjunct), and replaying the trace with last-writer-wins
semantics makes any offset covered by a comment span end up formatted as
comment, because comment spans are applied last (second conjunct). -/
theorem claim_C4 :
    (∀ (th : Theme) (g : Grammar) (p o : Int) (tx : String),
      ∃ s1 s2 s3 s4 s5 s6 s7 : List Span,
        (highlightBlock th g p o tx).formats = s1 ++ s2 ++ s3 ++ s4 ++ s5 ++ s6 ++ s7
        ∧ (∀ sp ∈ s1, sp.cat = Cat.keyword) ∧ (∀ sp ∈ s2, sp.cat = Cat.operator)
        ∧ (∀ sp ∈ s3, sp.cat = Cat.brace) ∧ (∀ sp ∈ s4, sp.cat = Cat.special)
        ∧ (∀ sp ∈ s5, sp.cat = Cat.definition) ∧ (∀ sp ∈ s6, sp.cat = Cat.string)
        ∧ (∀ sp ∈ s7, sp.cat = Cat.comment))
    ∧ (∀ (th : Theme) (g : Grammar) (p o : Int) (tx : String) (i : Nat),
        (∃ sp ∈ (highlightBlock th g p o tx).formats, sp.cat = Cat.comment ∧ covers sp i) →
          applyTrace (highlightBlock th g p o tx).formats i = some Cat.comment) := by
  constructor
  · intro th g p o tx
    show ∃ s1 s2 s3 s4 s5 s6 s7 : List Span,
      (highlightBlockCore th g tx.data).1 = s1 ++ s2 ++ s3 ++ s4 ++ s5 ++ s6 ++ s7 ∧ _
    rcases core_cases th g tx.data with ⟨ms, e, _, hcore⟩ | ⟨ms, _, _, hcore⟩ |
      ⟨ms, kwR, opR, brR, dfR, stR, spR, cmR, _, _, hcore⟩
    · rw [hcore]
      exact ⟨[], [], [], [], [], [], [], by simp, by simp, by simp, by simp,
        by simp, by simp, by simp, by simp⟩
    · rw [hcore]
      exact ⟨[], [], [], [], [], [], [], by simp, by simp, by simp, by simp,
        by simp, by simp, by simp, by simp⟩
    · rw [hcore]
      exact applyAll_decomp tx.data kwR opR brR spR dfR stR cmR
  · intro th g p o tx i hcov
    rcases hcov with ⟨sp, hmem0, hcat, hcv⟩
    have hmem : sp ∈ (highlightBlockCore th g tx.data).1 := hmem0
    show applyTrace (highlightBlockCore th g tx.data).1 i = some Cat.comment
    rcases core_cases th g tx.data with ⟨ms, e, _, hcore⟩ | ⟨ms, _, _, hcore⟩ |
      ⟨ms, kwR, opR, brR, dfR, stR, spR, cmR, _, _, hcore⟩
    · rw [hcore] at hmem ⊢; simp at hmem
    · rw [hcore] at hmem ⊢; simp at hmem
    · rw [hcore] at hmem ⊢
      obtain ⟨t1, t2, t3, t4, t5, t6, t7, hdec, hc1, hc2, hc3, hc4, hc5, hc6, hc7⟩ :=
        applyAll_decomp tx.data kwR opR brR spR dfR stR cmR
      rw [hdec] at hmem ⊢
      have hsp7 : sp ∈ t7 := by
        simp only [List.mem_append] at hmem
        rcases hmem with ((((((h1 | h2) | h3) | h4) | h5) | h6) | h7)
        · rw [hc1 sp h1] at hcat; exact Cat.noConfusion hcat
        · rw [hc2 sp h2] at hcat; exact Cat.noConfusion hcat
        · rw [hc3 sp h3] at hcat; exact Cat.noConfusion hcat
        · rw [hc4 sp h4] at hcat; exact Cat.noConfusion hcat
        · rw [hc5 sp h5] at hcat; exact Cat.noConfusion hcat
        · rw [hc6 sp h6] at hcat; exact Cat.noConfusion hcat
        · exact h7
      simp only [applyTrace, List.foldl_append]
      exact foldl_covered i Cat.comment t7 hc7 ⟨sp, hsp7, hcv⟩ _

/-- C4 witness: with comment marker `#` and keyword `y` on line `y # y`,
offset 4 is covered both by a keyword span and by the comment span applied
after it; the final format at offset 4 is comment. -/
theorem claim_C4_witness :
    (∃ sp ∈ (highlightBlock themeC gramHash (-1) (-1) "y # y").formats,
       sp.cat = Cat.comment ∧ covers sp 4)
    ∧ applyTrace (highlightBlock themeC gramHash (-1) (-1) "y # y").formats 4
        = some Cat.comment :=
  ⟨⟨Span.mk 2 3 Cat.comment, by decide, rfl, by decide⟩,
   claim_C4.2 themeC gramHash (-1) (-1) "y # y" 4
     ⟨Span.mk 2 3 Cat.comment, by decide, rfl, by decide⟩⟩

/-- C5 counterexample: grammar with keyword `if`, one malformed operator
pattern and a brace rule `(`, on line `if (x)`: the claim predicts a
reported pattern-compile error and the brace span at offset 3; instead the
`re.error` escapes after the keyword phase — the brace span is missing and
no message is shown. -/
theorem claim_C5_counterexample :
    (highlightBlock themeC gramBadOp (-1) (-1) "if (x)").formats
      = [Span.mk 0 2 Cat.keyword]
    ∧ Span.mk 3 1 Cat.brace ∉ (highlightBlock themeC gramBadOp (-1) (-1) "if (x)").formats
    ∧ (highlightBlock themeC gramBadOp (-1) (-1) "if (x)").msgs = []
    ∧ (highlightBlock themeC gramBadOp (-1) (-1) "if (x)").exc = some Exc.reError :=
  ⟨by decide, by decide, by decide, by decide⟩

/-- C5 amended: with a complete theme and a grammar whose operator list
holds one malformed pattern, highlighting a line applies the keyword rules
and the operator rules preceding the malformed one, then stops: the
`re.error` escapes the highlighter uncaught, every later rule is skipped,
and no message box reports the failure. -/
theorem claim_C5_amended (th : Theme) (g : Grammar) (p o : Int) (tx : String)
    (kws : List String) (ops1 ops2 brs sps : List Pattern) (dfs : List String)
    (cm : String)
    (hth : themeComplete th)
    (hkw : g.keywords = some kws)
    (hop : g.operators = some (ops1 ++ Pattern.bad :: ops2))
    (hbr : g.braces = some brs) (hdf : g.definitions = some dfs)
    (hsp : g.specials = some sps) (hcm : g.comment = some cm)
    (hgood : ∀ q ∈ ops1, q ≠ Pattern.bad) :
    (highlightBlock th g p o tx).formats
      = (searchAndApplyFormatting tx.data (kws.map Pattern.kw) Cat.keyword 0).1
        ++ (searchAndApplyFormatting tx.data ops1 Cat.operator 0).1
    ∧ (highlightBlock th g p o tx).exc = some Exc.reError
    ∧ (highlightBlock th g p o tx).msgs = [] := by
  have hk2 : (searchAndApplyFormatting tx.data (kws.map Pattern.kw) Cat.keyword 0).2
      = none := saf_no_bad _ _ _ _ (map_kw_no_bad kws)
  have hop2 := saf_with_bad tx.data Cat.operator 0 ops1 ops2 hgood
  unfold themeComplete at hth
  refine ⟨?_, ?_, ?_⟩ <;>
    simp [highlightBlock, highlightBlockCore, hth, buildRules, hkw, hop, hbr, hdf,
      hsp, hcm, applyAll, hk2, hop2]

/-- C5 witness: the amended statement at the sample grammar with the
malformed operator pattern. -/
theorem claim_C5_witness :
    themeComplete themeC
    ∧ ((highlightBlock themeC gramBadOp (-1) (-1) "if (x)").formats
        = (searchAndApplyFormatting ("if (x)").data ((["if"] : List String).map Pattern.kw)
            Cat.keyword 0).1
          ++ (searchAndApplyFormatting ("if (x)").data ([] : List Pattern) Cat.operator 0).1
       ∧ (highlightBlock themeC gramBadOp (-1) (-1) "if (x)").exc = some Exc.reError
       ∧ (highlightBlock themeC gramBadOp (-1) (-1) "if (x)").msgs = []) :=
  ⟨by decide,
   claim_C5_amended themeC gramBadOp (-1) (-1) "if (x)" ["if"] [] []
     [Pattern.lit "("] [] [] "#" (by decide) rfl rfl rfl rfl rfl rfl
     (by intro q hq; simp at hq)⟩

/-- C6: with a missing language file, `loadSyntax` warns and returns the
empty dictionary; highlighting any line with it (under a complete theme)
produces no spans, raises nothing out of the highlighter, and leaves the
stored block state unchanged — the rule-construction `KeyError` is caught
inside `highlightBlock`. -/
theorem claim_C6 (th : Theme) (p o : Int) (tx : String) (hth : themeComplete th) :
    loadSyntax none = (emptyGrammar, [Msg.couldNotOpenLangFile])
    ∧ (highlightBlock th (loadSyntax none).1 p o tx).formats = []
    ∧ (highlightBlock th (loadSyntax none).1 p o tx).exc = none
    ∧ (highlightBlock th (loadSyntax none).1 p o tx).blockState = o := by
  unfold themeComplete at hth
  refine ⟨rfl, ?_, ?_, rfl⟩ <;>
    simp [highlightBlock, highlightBlockCore, hth, loadSyntax, emptyGrammar, buildRules]

/-- C6 witness: the statement at the complete sample theme. -/
theorem claim_C6_witness :
    themeComplete themeC
    ∧ (loadSyntax none = (emptyGrammar, [Msg.couldNotOpenLangFile])
       ∧ (highlightBlock themeC (loadSyntax none).1 (-1) (-1) "int x;").formats = []
       ∧ (highlightBlock themeC (loadSyntax none).1 (-1) (-1) "int x;").exc = none
       ∧ (highlightBlock themeC (loadSyntax none).1 (-1) (-1) "int x;").blockState = -1) :=
  ⟨by decide, claim_C6 themeC (-1) (-1) "int x;" (by decide)⟩

/-- C7: every keyword-category span emitted by a `highlightBlock` run sits
on a word boundary at both ends, so a keyword occurring only strictly
inside a longer word-character run (where the boundary test fails) never
yields a keyword span (first conjunct; third conjunct shows it concretely
for keyword `for` inside `forint`); and for keywords `if`/`else` on
`if x: pass` the run produces exactly one keyword span, at offset 0 with
length 2 (second conjunct). -/
theorem claim_C7 :
    (∀ (th : Theme) (g : Grammar) (p o : Int) (tx : String),
       ∀ sp ∈ (highlightBlock th g p o tx).formats, sp.cat = Cat.keyword →
         boundaryAt tx.data sp.start = true
         ∧ boundaryAt tx.data (sp.start + sp.count) = true)
    ∧ catSpansL (highlightBlock themeC gramIfElse (-1) (-1) "if x: pass").formats
        Cat.keyword = [Span.mk 0 2 Cat.keyword]
    ∧ catSpansL (highlightBlock themeC gramFor (-1) (-1) "forint x").formats
        Cat.keyword = [] :=
  ⟨fun th g _ _ tx sp h hcat => core_kw_bounds th g tx.data sp h hcat,
   by decide, by decide⟩

/-- C7 witness: the boundary property instantiated at the Scenario A span. -/
theorem claim_C7_witness :
    Span.mk 0 2 Cat.keyword ∈ (highlightBlock themeC gramIfElse (-1) (-1) "if x: pass").formats
    ∧ (boundaryAt ("if x: pass").data 0 = true
       ∧ boundaryAt ("if x: pass").data (0 + 2) = true) :=
  ⟨by decide,
   claim_C7.1 themeC gramIfElse (-1) (-1) "if x: pass" (Span.mk 0 2 Cat.keyword)
     (by decide) rfl⟩

/-- C8: per-line highlighting is deterministic and idempotent — two
invocations on equal line text, carried-in states, grammar and theme give
the same span trace and the same stored state. -/
theorem claim_C8 (th th2 : Theme) (g g2 : Grammar) (p p2 o o2 : Int) (tx tx2 : String)
    (hth : th = th2) (hg : g = g2) (hp : p = p2) (ho : o = o2) (htx : tx = tx2) :
    (highlightBlock th g p o tx).formats = (highlightBlock th2 g2 p2 o2 tx2).formats
    ∧ (highlightBlock th g p o tx).blockState
        = (highlightBlock th2 g2 p2 o2 tx2).blockState := by
  subst hth hg hp ho htx
  exact ⟨rfl, rfl⟩

/-- C8 witness: determinism instantiated at one concrete input. -/
theorem claim_C8_witness :
    (highlightBlock themeC gramIf (-1) (-1) "if x").formats
      = (highlightBlock themeC gramIf (-1) (-1) "if x").formats
    ∧ (highlightBlock themeC gramIf (-1) (-1) "if x").blockState
        = (highlightBlock themeC gramIf (-1) (-1) "if x").blockState :=
  claim_C8 themeC themeC gramIf gramIf (-1) (-1) (-1) (-1) "if x" "if x"
    rfl rfl rfl rfl rfl

/-- C9: highlighting the empty line text never formats a character (every
recorded `setFormat` call has zero length, for any grammar and theme,
including ones with missing keys or malformed patterns) and leaves the
line state unchanged: the stored state equals the carried-in state `s`
(the two coincide in every reachable document, since no state is ever
written). -/
theorem claim_C9 (th : Theme) (g : Grammar) (s : Int) :
    (∀ sp ∈ (highlightBlock th g s s "").formats, sp.count = 0)
    ∧ (highlightBlock th g s s "").blockState = s :=
  ⟨fun sp h => core_nil th g sp h, rfl⟩

/-- C9 witness: the empty-line statement at concrete inputs. -/
theorem claim_C9_witness :
    (∀ sp ∈ (highlightBlock themeC gramIf (-1) (-1) "").formats, sp.count = 0)
    ∧ (highlightBlock themeC gramIf (-1) (-1) "").blockState = -1 :=
  claim_C9 themeC gramIf (-1)

/-- C10: when the configured theme file does not exist, `loadTheme` warns
and returns no value, and constructing the highlighter from that result
fails immediately with the `TypeError` raised by subscripting `None` —
before the language grammar is even consulted. -/
theorem claim_C10 :
    loadTheme none = (none, [Msg.couldNotOpenTheme])
    ∧ (∀ langFound : Option Grammar,
        SyntaxHighlighterInit (loadTheme none).1 langFound
          = Except.error Exc.typeError) :=
  ⟨rfl, fun _ => rfl⟩

end Harmony
